import Mathlib

/-!
Verification of the session-and-room core of go-mahjong-server against its
natural-language specification.  The Go sources under scrutiny are shallowly
embedded: pure functions become Lean functions, handler bodies that mutate a
desk or the player registry become explicit state-passing functions returning
the new state together with the broadcasts and direct replies they emit, and
failing dereferences become Option results.  Code of the repository that is
not part of the provided sources (the dissolve-vote record internals, the
desk helpers playerJoin/onPlayerExit/destroy/applyDissolve, the win checker
CheckWin) is modelled from the specification, and each such definition says
so in its doc comment.
-/

namespace GoMahjong

/-! ## Hand evaluation engine (src/internal/game/mahjong/heler.go)

CheckWin itself is not among the provided sources; IsTing and TingTiles only
call it, so both are parameterised by the checker.  MaxTileIndex is likewise
a constant of the missing tile module and is kept as a parameter. -/

/-- IsTing from heler.go: for every tile id `0 ≤ i ≤ maxTileIndex`, skipping
exact multiples of 10, test whether appending `i` to the hand wins.  The Go
code writes `i` into a fresh clone of the hand, i.e. it tests
`onHand ++ [i]` and never mutates `onHand`. -/
def IsTing (checkWin : List Nat → Bool) (maxTileIndex : Nat) (onHand : List Nat) : Bool :=
  (List.range (maxTileIndex + 1)).any fun i => (i % 10 != 0) && checkWin (onHand ++ [i])

/-- TingTiles from heler.go: collects, in increasing order, every tile id of
the same scan that completes the hand. -/
def TingTiles (checkWin : List Nat → Bool) (maxTileIndex : Nat) (onHand : List Nat) : List Nat :=
  (List.range (maxTileIndex + 1)).filter fun i => (i % 10 != 0) && checkWin (onHand ++ [i])

/-- C2: TingTiles returns exactly the ids `i ≤ maxTileIndex` with
`i % 10 ≠ 0` whose addition wins, and IsTing holds iff TingTiles is
non-empty.  Both are pure functions of `onHand` (the Go code copies the hand
into a fresh clone before probing), so `onHand` is left unmodified by
construction. -/
theorem c2_ting_enumeration (checkWin : List Nat → Bool) (maxTileIndex : Nat)
    (onHand : List Nat) :
    (∀ i : Nat, i ∈ TingTiles checkWin maxTileIndex onHand ↔
      i ≤ maxTileIndex ∧ i % 10 ≠ 0 ∧ checkWin (onHand ++ [i]) = true)
    ∧ (IsTing checkWin maxTileIndex onHand = true ↔
        TingTiles checkWin maxTileIndex onHand ≠ []) := by
  constructor
  · intro i
    simp [TingTiles, List.mem_filter, List.mem_range, Nat.lt_succ_iff, and_assoc]
  · rw [IsTing, List.any_eq_true]
    constructor
    · rintro ⟨i, hi, hp⟩ hnil
      have : i ∈ TingTiles checkWin maxTileIndex onHand := by
        rw [TingTiles, List.mem_filter]
        exact ⟨hi, hp⟩
      rw [hnil] at this
      exact (List.not_mem_nil i) this
    · intro hne
      obtain ⟨i, hi⟩ := List.exists_mem_of_ne_nil _ hne
      rw [TingTiles, List.mem_filter] at hi
      exact ⟨i, hi.1, hi.2⟩

/-! ## Desk data model (src/unnamed/part_001)

Desk status values: Created, Playing, Destroyed.  The dissolve-vote record
held by every desk is not among the provided sources; its fields and the
operations reset/stop/setUidStatus/agreeCount are modelled from the
specification of the Dissolve Vote State (per-seat agree flag, countdown,
active flag). -/

/-- Desk lifecycle status (constant.DeskStatus). -/
inductive DeskStatus
  | create
  | playing
  | destroyed
  deriving DecidableEq, Repr

/-- Constant applyDissolveRestTime from src/unnamed/part_001: a fresh
dissolve application starts a 300 second countdown. -/
def applyDissolveRestTime : Int := 300

/-- Constant agreeDissolveRestTime from src/unnamed/part_001: once a player
agrees, the countdown is lowered to 150 seconds. -/
def agreeDissolveRestTime : Int := 150

/-- Insert a uid into a list of uids unless it is already present (setting a
per-uid boolean flag in a flag map, read as the set of uids whose flag is
set). -/
def insertUid (uid : Int) (l : List Int) : List Int :=
  if uid ∈ l then l else uid :: l

/-- Modelled from the spec: the per-room Dissolve Vote State — "per-seat
online flag, per-seat agree flag with a status label, a countdown deadline,
and an is-active flag" (the dissolve record itself is not under src/).
`agreed` is the set of uids whose agree flag is set, `online` the set of
uids marked reachable, `running` the is-active flag of the countdown and
`restTime` the remaining seconds. -/
structure DissolveState where
  agreed : List Int
  online : List Int
  running : Bool
  restTime : Int
  deriving DecidableEq, Repr

/-- Modelled from the spec: "Any recorded disagreement immediately resets
all seats to unset" — reset clears every seat's agree flag. -/
def DissolveState.reset (ds : DissolveState) : DissolveState :=
  { ds with agreed := [] }

/-- Modelled from the spec: stopping the vote cancels the countdown (clears
the is-active flag). -/
def DissolveState.stop (ds : DissolveState) : DissolveState :=
  { ds with running := false }

/-- Modelled from the spec: `SetStatus(playerId, agreed, label)` "records a
seat's decision" — the per-seat agree flag is set or cleared; resolution and
reset are driven by the caller (DeskManager.DissolveStatus, which is under
src/). -/
def DissolveState.setUidStatus (ds : DissolveState) (uid : Int) (agreed : Bool) :
    DissolveState :=
  if agreed then { ds with agreed := insertUid uid ds.agreed }
  else { ds with agreed := ds.agreed.erase uid }

/-- Number of seats whose agree flag is set. -/
def DissolveState.agreeCount (ds : DissolveState) : Nat :=
  ds.agreed.length

/-- Modelled from the spec: `UpdateOnlineStatus(playerId, online)` "toggles
whether a seat is currently reachable"; it does not itself change the vote
outcome. -/
def DissolveState.updateOnlineStatus (ds : DissolveState) (uid : Int) (online : Bool) :
    DissolveState :=
  if online then { ds with online := insertUid uid ds.online }
  else { ds with online := ds.online.erase uid }

/-- A desk (room): seated players in seat order, the mode's seat capacity
(totalPlayerCount), lifecycle status, creation timestamp, owning club id,
broadcast group (session ids), the set of players that pressed ready
(prepare), the current round, and the embedded dissolve vote. -/
structure Desk where
  players : List Int
  capacity : Nat
  status : DeskStatus
  createdAt : Int
  clubId : Int
  group : List Nat
  ready : List Int
  round : Nat
  dissolve : DissolveState
  deriving DecidableEq, Repr

/-- Desk.isDestroy: the desk's status is Destroyed. -/
def Desk.isDestroy (d : Desk) : Bool :=
  d.status == DeskStatus.destroyed

/-- Modelled from the spec: full consensus means "the vote is resolved as
Dissolved (caller destroys the room)" — doDissolve is not under src/, its
room-destroying effect is the status transition to Destroyed. -/
def Desk.doDissolve (d : Desk) : Desk :=
  { d with status := DeskStatus.destroyed }

/-- Modelled from the spec: `Apply(initiatorId)`: "if Idle, transitions to
Pending, sets the countdown to a fixed base duration, marks the initiator as
agreed" (Desk.applyDissolve is not under src/; the base duration is the
applyDissolveRestTime constant, which is). -/
def Desk.applyDissolve (d : Desk) (uid : Int) : Desk :=
  if d.dissolve.running then d
  else
    { d with dissolve :=
        { d.dissolve with
            running := true
            restTime := applyDissolveRestTime
            agreed := [uid] } }

/-- Modelled from the spec: the countdown — one elapsed second of a pending
vote lowers the remaining time by one; an idle vote has no countdown. -/
def Desk.tickDissolve (d : Desk) : Desk :=
  if d.dissolve.running then
    { d with dissolve := { d.dissolve with restTime := d.dissolve.restTime - 1 } }
  else d

/-- Modelled from the spec: `Exit` "Removes the seat" and
`OnPlayerDisconnect` handling — Desk.onPlayerExit is not under src/.  The
exiting player's seat and ready mark are removed. -/
def Desk.onPlayerExit (d : Desk) (uid : Int) : Desk :=
  { d with players := d.players.erase uid, ready := d.ready.erase uid }

/-- Modelled from the spec: `Join(session)` "otherwise seats the player and
returns current room/table info" — Desk.playerJoin is not under src/.  The
joining player is appended to the seated list. -/
def Desk.playerJoin (d : Desk) (uid : Int) : Desk :=
  { d with players := d.players ++ [uid] }

/-- Messages emitted by desk handlers, either broadcast to the desk's group
or pushed directly to the requesting session. -/
inductive Msg
  | onDissolveSuccess
  | onDissolveFailure (deskPos : Int)
  | onDissolveStatusB (restTime : Int)
  | onPlayerExitB (uid : Int) (deskPos : Int)
  | onDissolveB (uid : Int) (deskPos : Int)
  deriving DecidableEq, Repr

/-- DeskManager.DissolveStatus from src/unnamed/part_001: a player agrees or
refuses a pending dissolve request.  Input is the requester's desk, uid and
decision; output is the new desk state, the broadcasts to the desk group and
the direct pushes to the requester.  On a destroyed desk only
onDissolveSuccess is pushed back.  A refusal records the refusing seat
(1-based), resets and stops the vote and broadcasts onDissolveFailure.  An
agreement records the flag, clamps the countdown to agreeDissolveRestTime,
broadcasts the collected status, and — only when every one of the
totalPlayerCount seats has agreed — stops the vote and destroys the room. -/
def DissolveStatus (d : Desk) (uid : Int) (result : Bool) : Desk × List Msg × List Msg :=
  if d.status = DeskStatus.destroyed then
    (d, [], [Msg.onDissolveSuccess])
  else if result = false then
    let deskPos : Int :=
      match d.players.findIdx? (fun u => u == uid) with
      | some i => Int.ofNat i + 1
      | none => -1
    let d1 := { d with dissolve := (d.dissolve.reset).stop }
    (d1, [Msg.onDissolveFailure deskPos], [])
  else
    let ds0 := d.dissolve.setUidStatus uid true
    let ds1 := if agreeDissolveRestTime < ds0.restTime then
        { ds0 with restTime := agreeDissolveRestTime } else ds0
    let d1 := { d with dissolve := ds1 }
    if ds1.agreeCount < d.capacity then
      (d1, [Msg.onDissolveStatusB ds1.restTime], [])
    else
      ({ d1 with dissolve := d1.dissolve.stop }.doDissolve,
        [Msg.onDissolveStatusB ds1.restTime], [])

/-- Operations that can touch a desk's dissolve vote. -/
inductive DeskOp
  | dissolveStatusOp (uid : Int) (result : Bool)
  | applyDissolveOp (uid : Int)
  | pauseOp (uid : Int)
  | resumeOp (uid : Int)
  | tickOp
  deriving DecidableEq, Repr

/-- One step of the desk as driven by the handlers: DissolveStatus,
applyDissolve (via DeskManager.Dissolve), Pause/Resume (which only call
updateOnlineStatus), and the elapse of one countdown second. -/
def Desk.step (d : Desk) : DeskOp → Desk
  | DeskOp.dissolveStatusOp uid r => (DissolveStatus d uid r).1
  | DeskOp.applyDissolveOp uid => d.applyDissolve uid
  | DeskOp.pauseOp uid => { d with dissolve := d.dissolve.updateOnlineStatus uid false }
  | DeskOp.resumeOp uid => { d with dissolve := d.dissolve.updateOnlineStatus uid true }
  | DeskOp.tickOp => d.tickDissolve

/-! ## Registries

Both managers hold process-wide Go maps (room number to desk, uid to
player).  They are embedded as association lists; a Go map read `m[k]`
becomes lookupEntry, a write becomes setEntry (replace) or cons (fresh
insert), and `delete(m, k)` becomes removeEntry. -/

/-- Lookup in an association list: first entry whose key matches. -/
def lookupEntry {α β : Type} [DecidableEq α] (l : List (α × β)) (k : α) : Option β :=
  match l with
  | [] => none
  | e :: rest => if e.1 = k then some e.2 else lookupEntry rest k

/-- Replace the value stored under an existing key. -/
def setEntry {α β : Type} [DecidableEq α] (l : List (α × β)) (k : α) (v : β) :
    List (α × β) :=
  l.map fun e => if e.1 = k then (k, v) else e

/-- Delete a key (Go `delete(m, k)`). -/
def removeEntry {α β : Type} [DecidableEq α] (l : List (α × β)) (k : α) :
    List (α × β) :=
  l.filter fun e => e.1 ≠ k

/-! ## DeskManager.Join (src/unnamed/part_001) -/

/-- Replies DeskManager.Join can produce: the version-expired reply, the
desk-not-found reply, the room-full reply (deskPlayerNumEnough), the
club-restriction refusal, and the table-info success response. -/
inductive JoinReply
  | versionExpire
  | deskNotFound
  | playerNumEnough
  | clubDenied (clubId : Int)
  | tableInfo (deskNo : Nat) (status : DeskStatus) (round : Nat)
  deriving DecidableEq, Repr

/-- DeskManager.Join from src/unnamed/part_001: version gate, desk lookup,
capacity gate (`len(d.players) >= d.totalPlayerCount()`), club-membership
gate, then playerJoin and the table-info response.  `forceUpdate`/`version`
are the build-time globals and `isClubMember` stands for the external
db.IsClubMember collaborator.  Returns the reply and the new desk
registry. -/
def Join (forceUpdate : Bool) (version : Nat) (isClubMember : Int → Int → Bool)
    (desks : List (Nat × Desk)) (uid : Int) (reqVersion deskNo : Nat) :
    JoinReply × List (Nat × Desk) :=
  if forceUpdate = true ∧ reqVersion ≠ version then
    (JoinReply.versionExpire, desks)
  else
    match lookupEntry desks deskNo with
    | none => (JoinReply.deskNotFound, desks)
    | some d =>
      if d.capacity ≤ d.players.length then
        (JoinReply.playerNumEnough, desks)
      else if 0 < d.clubId ∧ isClubMember d.clubId uid = false then
        (JoinReply.clubDenied d.clubId, desks)
      else
        let d1 := d.playerJoin uid
        (JoinReply.tableInfo deskNo d1.status d1.round, setEntry desks deskNo d1)

/-! ## DeskManager.Exit (src/unnamed/part_001) -/

/-- DeskManager.Exit from src/unnamed/part_001: takes the requester's desk
(none when the player is in no room), uid and the destroy flag; returns the
new desk, the broadcasts to the desk group and the direct pushes to the
requester.  With no desk or a destroyed desk only onDissolveSuccess is
pushed.  Outside the Created status the request is dropped (log only).
Otherwise the seat position is computed; an un-ready player first gets a
direct onDissolve push; then the exit (or dissolve, per the flag) response
is broadcast and the seat is removed via onPlayerExit. -/
def Exit (d? : Option Desk) (uid : Int) (isDestroy : Bool) :
    Option Desk × List Msg × List Msg :=
  match d? with
  | none => (none, [], [Msg.onDissolveSuccess])
  | some d =>
    if d.status = DeskStatus.destroyed then
      (some d, [], [Msg.onDissolveSuccess])
    else if d.status ≠ DeskStatus.create then
      (some d, [], [])
    else
      let deskPos : Int :=
        match d.players.findIdx? (fun u => u == uid) with
        | some i => Int.ofNat i
        | none => -1
      let pushes : List Msg :=
        match d.players.findIdx? (fun u => u == uid) with
        | some i =>
          if uid ∈ d.ready then [] else [Msg.onDissolveB uid (Int.ofNat i)]
        | none => []
      let res := if isDestroy then Msg.onDissolveB uid deskPos
        else Msg.onPlayerExitB uid deskPos
      (some (d.onPlayerExit uid), [res], pushes)

/-! ## DeskManager sweep (src/unnamed/part_001, AfterInit timer) -/

/-- Selection loop of the 5-minute sweep: collect every desk whose status is
Destroyed or whose creation time lies before the deadline (24 hours before
the sweep). -/
def sweepVictims (deadline : Int) : List (Nat × Desk) → List (Nat × Desk)
  | [] => []
  | e :: rest =>
    if e.2.status = DeskStatus.destroyed ∨ e.2.createdAt < deadline then
      e :: sweepVictims deadline rest
    else sweepVictims deadline rest

/-- Destruction loop of the sweep: `for _, d := range destroyDesk {
d.destroy() }`.  Modelled from the spec: Desk.destroy is not under src/ —
a destroyed room "is physically removed" from the registry (its seats and
broadcast group are freed with it). -/
def destroyAll (victims : List (Nat × Desk)) (desks : List (Nat × Desk)) :
    List (Nat × Desk) :=
  match victims with
  | [] => desks
  | v :: rest => destroyAll rest (removeEntry desks v.1)

/-- One pass of the 5-minute sweep timer of DeskManager.AfterInit: select
the desks to destroy against the deadline `now - 24h` (in seconds), destroy
each of them, and report the room numbers destroyed in this pass (its
destruction side effects). -/
def sweepPass (desks : List (Nat × Desk)) (now : Int) : List (Nat × Desk) × List Nat :=
  let deadline := now - 86400
  let victims := sweepVictims deadline desks
  (destroyAll victims desks, victims.map Prod.fst)

/-! ## Player registry: Login and ReConnect (src/unnamed/part_000 and 001) -/

/-- In-memory player record of the registry: the current (nullable) session
and the current (nullable) room, both weak references. -/
structure PlayerRec where
  session : Option Nat
  desk : Option Nat
  deriving DecidableEq, Repr

/-- Session-level side effects performed while (re)binding a player, in
program order: Clear and Close of the stale session, bindSession of the new
one, removal of the stale session from the desk's broadcast group, and
construction of a fresh player. -/
inductive RcEvent
  | clearSession (sid : Nat)
  | closeSession (sid : Nat)
  | bindSession (sid : Nat)
  | groupLeave (sid : Nat)
  | createPlayer (uid : Int)
  deriving DecidableEq, Repr

/-- DeskManager.ReConnect from src/unnamed/part_001, as the ordered trace of
session-level side effects it performs after a successful `s.Bind(uid)`.
When the uid is unknown a fresh player is created.  When the player is known
the code, in this order: Clears and Closes the previous session (when one
exists), binds the new session, and only then removes the previous session
from the desk's broadcast group (when the player has a desk). -/
def ReConnect (p? : Option PlayerRec) (uid : Int) (newSid : Nat) : List RcEvent :=
  match p? with
  | none => [RcEvent.createPlayer uid]
  | some p =>
    (match p.session with
     | some ps => [RcEvent.clearSession ps, RcEvent.closeSession ps]
     | none => [])
    ++ [RcEvent.bindSession newSid]
    ++ (match p.desk, p.session with
        | some _, some ps => [RcEvent.groupLeave ps]
        | _, _ => [])

/-- Manager.Login from src/unnamed/part_000.  `bindErr` is the result of the
`s.Bind(uid)` call on line 132 — the Go code discards it.  `respErr` is the
result of the final `s.Response(res)`.  An unknown uid gets a fresh player
bound to the new session; a known uid has its desk-group membership of the
stale session removed, the stale session Cleared and Closed (when it exists
and differs from the new one), and the new session bound.  Returns Login's
error result, the updated registry, and the event trace. -/
def Login (bindErr respErr : Option Nat) (players : List (Int × PlayerRec))
    (uid : Int) (newSid : Nat) :
    Option Nat × List (Int × PlayerRec) × List RcEvent :=
  match lookupEntry players uid with
  | none =>
    (respErr, (uid, ⟨some newSid, none⟩) :: players, [RcEvent.createPlayer uid])
  | some p =>
    let prevEvs :=
      match p.session with
      | some ps =>
        if ps ≠ newSid then
          (match p.desk with
           | some _ => [RcEvent.groupLeave ps]
           | none => [])
          ++ [RcEvent.clearSession ps, RcEvent.closeSession ps]
        else []
      | none => []
    (respErr, setEntry players uid { p with session := some newSid },
      prevEvs ++ [RcEvent.bindSession newSid])

/-! ## Manager administrative drain (src/unnamed/part_000, AfterInit timer)

The once-per-second timer drains the kick, reset and recharge channels.  Go
`select` picks among ready channels; the embedding drains with a fixed
priority (kick, reset, recharge), which covers every schedule in which only
one channel is non-empty.  The Go `return` statements inside the reset case
end the whole timer pass; a nil dereference (kick of an unregistered or
offline uid, recharge of an unregistered uid) faults the pass. -/

/-- Kick case body: `p, ok := player(uid); if !ok || p.session == nil {
log }; p.session.Close()`.  The Close call is unconditional: an unregistered
uid dereferences a nil player, a registered uid with no session Closes a nil
session — both fault (none).  Otherwise the closed session id is
returned. -/
def kickClosed (players : List (Int × PlayerRec)) (uid : Int) : Option Nat :=
  match lookupEntry players uid with
  | none => none
  | some p => p.session

/-- Outcome of the reset case body. -/
inductive ResetAct
  | abortPass
  | clearDesk
  deriving DecidableEq, Repr

/-- Reset case body: an unknown uid executes `return` (ending the pass), a
uid with a live session logs a warning and executes `return` (ending the
pass), and only an offline registered uid has its desk reference cleared. -/
def resetAct (players : List (Int × PlayerRec)) (uid : Int) : ResetAct :=
  match lookupEntry players uid with
  | none => ResetAct.abortPass
  | some p =>
    match p.session with
    | some _ => ResetAct.abortPass
    | none => ResetAct.clearDesk

/-- Recharge case body: `player, ok := m.player(uid); if s := player.session;
ok && s != nil { push }` — the field read `player.session` happens before
`ok` is tested, so an unregistered uid dereferences a nil player (none).  A
registered uid is safe: the push goes out iff the session is live. -/
def rechargeDelivery (players : List (Int × PlayerRec)) (uid : Int) :
    Option (Option Nat) :=
  match lookupEntry players uid with
  | none => none
  | some p => some p.session

/-- Clear the desk reference of a registered player (`p.desk = nil`). -/
def clearPlayerDesk (players : List (Int × PlayerRec)) (uid : Int) :
    List (Int × PlayerRec) :=
  players.map fun e => if e.1 = uid then (e.1, { e.2 with desk := none }) else e

/-- State the administrative timer pass works on: the player registry, the
three queues, and the observable side effects of the pass (sessions closed
by kicks, coin-change pushes as session-coin pairs). -/
structure MState where
  players : List (Int × PlayerRec)
  chKick : List Int
  chReset : List Int
  chRecharge : List (Int × Int)
  closed : List Nat
  pushes : List (Nat × Int)
  deriving DecidableEq, Repr

/-- Queue total used as the drain's termination measure. -/
def queueSize (st : MState) : Nat :=
  st.chKick.length + st.chReset.length + st.chRecharge.length

/-- How a timer pass ends: `ok` through the default case with all three
channels already drained, `aborted` by a `return` inside the reset case
(remaining queue contents survive to the next tick), or `fault` by a nil
dereference. -/
inductive DrainResult
  | ok (st : MState)
  | aborted (st : MState)
  | fault (st : MState)
  deriving DecidableEq, Repr

/-- The per-second timer pass of Manager.AfterInit: loop taking one queued
request at a time until the default case breaks the loop, the reset case
returns, or a dereference faults. -/
def drainLoop (st : MState) : DrainResult :=
  match _h1 : st.chKick with
  | uid :: rest =>
    match kickClosed st.players uid with
    | none => DrainResult.fault { st with chKick := rest }
    | some sid =>
      drainLoop { st with chKick := rest, closed := st.closed ++ [sid] }
  | [] =>
    match _h2 : st.chReset with
    | uid :: rest =>
      match resetAct st.players uid with
      | ResetAct.abortPass => DrainResult.aborted { st with chReset := rest }
      | ResetAct.clearDesk =>
        drainLoop { st with chReset := rest, players := clearPlayerDesk st.players uid }
    | [] =>
      match _h3 : st.chRecharge with
      | (uid, coin) :: rest =>
        match rechargeDelivery st.players uid with
        | none => DrainResult.fault { st with chRecharge := rest }
        | some (some sid) =>
          drainLoop { st with chRecharge := rest, pushes := st.pushes ++ [(sid, coin)] }
        | some none => drainLoop { st with chRecharge := rest }
      | [] => DrainResult.ok st
termination_by queueSize st
decreasing_by
  all_goals simp_all [queueSize]

/-! ## Concrete fixtures used by the witnesses -/

/-- Idle dissolve vote. -/
def dissolveIdle : DissolveState :=
  { agreed := [], online := [1, 2, 3], running := false, restTime := 0 }

/-- A three-seat desk mid-game with a pending dissolve vote: players 1 and 2
have already agreed, the countdown still shows 280 seconds. -/
def dPending : Desk :=
  { players := [1, 2, 3], capacity := 3, status := DeskStatus.playing,
    createdAt := 1000, clubId := -1, group := [11, 12, 13], ready := [1, 2, 3],
    round := 1,
    dissolve := { agreed := [1, 2], online := [1, 2, 3], running := true, restTime := 280 } }

/-- The same desk with no vote in progress. -/
def dIdleVote : Desk :=
  { dPending with dissolve := dissolveIdle }

/-- The same desk after destruction. -/
def dDestroyed : Desk :=
  { dPending with status := DeskStatus.destroyed }

/-- A full two-seat desk still in the Created status. -/
def dFull : Desk :=
  { players := [1, 2], capacity := 2, status := DeskStatus.create,
    createdAt := 1000, clubId := -1, group := [11, 12], ready := [],
    round := 0, dissolve := dissolveIdle }

/-- A club-membership oracle accepting everyone. -/
def icmAlways : Int → Int → Bool := fun _ _ => true

/-! # Theorems -/

/-! ## Helper lemmas -/

/-- Membership in insertUid. -/
theorem mem_insertUid (a u : Int) (l : List Int) :
    a ∈ insertUid u l ↔ a = u ∨ a ∈ l := by
  unfold insertUid
  split
  · rename_i h
    constructor
    · exact Or.inr
    · rintro (rfl | ha)
      · exact h
      · exact ha
  · simp [List.mem_cons]

/-- insertUid preserves Nodup. -/
theorem nodup_insertUid (u : Int) (l : List Int) (h : l.Nodup) :
    (insertUid u l).Nodup := by
  unfold insertUid
  split
  · exact h
  · rename_i hu
    exact List.nodup_cons.mpr ⟨hu, h⟩

/-- The agree branch of DissolveStatus when enough seats have agreed:
the vote resolves, the countdown stops and the desk is destroyed. -/
theorem dissolveStatus_agree_resolves (d : Desk) (uid : Int)
    (hstat : d.status ≠ DeskStatus.destroyed)
    (hge : d.capacity ≤ (insertUid uid d.dissolve.agreed).length) :
    (DissolveStatus d uid true).1.status = DeskStatus.destroyed
    ∧ (DissolveStatus d uid true).1.dissolve.running = false
    ∧ (DissolveStatus d uid true).1.dissolve.agreed = insertUid uid d.dissolve.agreed := by
  unfold DissolveStatus
  rw [if_neg hstat]
  simp only [DissolveState.setUidStatus, if_pos rfl, DissolveState.agreeCount,
    Desk.doDissolve, DissolveState.stop]
  by_cases hc : agreeDissolveRestTime < d.dissolve.restTime <;>
    simp [hc, not_lt.mpr hge]

/-- The agree branch of DissolveStatus when at least one seat is still
missing: the vote stays as it was, only the agree set and countdown move. -/
theorem dissolveStatus_agree_pending (d : Desk) (uid : Int)
    (hstat : d.status ≠ DeskStatus.destroyed)
    (hlt : (insertUid uid d.dissolve.agreed).length < d.capacity) :
    (DissolveStatus d uid true).1.status = d.status
    ∧ (DissolveStatus d uid true).1.dissolve.running = d.dissolve.running
    ∧ (DissolveStatus d uid true).1.dissolve.agreed = insertUid uid d.dissolve.agreed := by
  unfold DissolveStatus
  rw [if_neg hstat]
  simp only [DissolveState.setUidStatus, if_pos rfl, DissolveState.agreeCount]
  by_cases hc : agreeDissolveRestTime < d.dissolve.restTime <;>
    simp [hc, hlt]

/-! ## C1 -/

/-- C1: on a live desk whose N seats are all taken, a DissolveStatus refusal
resets every agree flag, stops the countdown and keeps the desk alive
(back to idle); an agreement coming from the last player who had not yet
agreed stops the countdown and destroys the room, while an agreement
recorded while some other seat is still missing changes neither the status
nor the countdown's activity; and on an already destroyed desk the handler
does nothing but push onDissolveSuccess, so the vote resolves at most
once. -/
theorem c1_dissolve_vote (d : Desk) (uid : Int) (r : Bool)
    (hstat : d.status ≠ DeskStatus.destroyed)
    (hcap : d.players.length = d.capacity)
    (hnd : d.players.Nodup)
    (hsub : d.dissolve.agreed ⊆ d.players)
    (hnda : d.dissolve.agreed.Nodup)
    (hmem : uid ∈ d.players) :
    ((DissolveStatus d uid false).1.dissolve.agreed = []
      ∧ (DissolveStatus d uid false).1.dissolve.running = false
      ∧ (DissolveStatus d uid false).1.status = d.status)
    ∧ ((∀ u ∈ d.players, u ≠ uid → u ∈ d.dissolve.agreed) →
        (DissolveStatus d uid true).1.status = DeskStatus.destroyed
        ∧ (DissolveStatus d uid true).1.dissolve.running = false)
    ∧ ((∃ u ∈ d.players, u ≠ uid ∧ u ∉ d.dissolve.agreed) →
        (DissolveStatus d uid true).1.status = d.status
        ∧ (DissolveStatus d uid true).1.dissolve.running = d.dissolve.running)
    ∧ (∀ d2 : Desk, d2.status = DeskStatus.destroyed →
        DissolveStatus d2 uid r = (d2, [], [Msg.onDissolveSuccess])) := by
  refine ⟨?_, ?_, ?_, ?_⟩
  · unfold DissolveStatus
    rw [if_neg hstat]
    simp [DissolveState.reset, DissolveState.stop]
  · intro hall
    have hsub2 : d.players ⊆ insertUid uid d.dissolve.agreed := by
      intro u hu
      rcases eq_or_ne u uid with rfl | hne
      · exact (mem_insertUid u u _).mpr (Or.inl rfl)
      · exact (mem_insertUid u uid _).mpr (Or.inr (hall u hu hne))
    have hge : d.capacity ≤ (insertUid uid d.dissolve.agreed).length := by
      rw [← hcap]
      exact (List.subperm_of_subset hnd hsub2).length_le
    have h := dissolveStatus_agree_resolves d uid hstat hge
    exact ⟨h.1, h.2.1⟩
  · rintro ⟨u, hu, hne, hna⟩
    have hnotin : u ∉ insertUid uid d.dissolve.agreed := by
      rw [mem_insertUid]
      rintro (rfl | h)
      · exact hne rfl
      · exact hna h
    have hndA : (u :: insertUid uid d.dissolve.agreed).Nodup :=
      List.nodup_cons.mpr ⟨hnotin, nodup_insertUid uid _ hnda⟩
    have hsubA : (u :: insertUid uid d.dissolve.agreed) ⊆ d.players := by
      intro a ha
      rcases List.mem_cons.mp ha with rfl | ha
      · exact hu
      · rcases (mem_insertUid a uid _).mp ha with rfl | ha
        · exact hmem
        · exact hsub ha
    have hlt : (insertUid uid d.dissolve.agreed).length < d.capacity := by
      have := (List.subperm_of_subset hndA hsubA).length_le
      rw [hcap] at this
      simpa using this
    have h := dissolveStatus_agree_pending d uid hstat hlt
    exact ⟨h.1, h.2.1⟩
  · intro d2 h2
    unfold DissolveStatus
    rw [if_pos h2]

/-- C1 witness: on the concrete pending desk, a refusal empties the agree
set, player 3's agreement (the last one outstanding) destroys the room, and
a DissolveStatus against the destroyed desk only pushes
onDissolveSuccess. -/
theorem c1_witness :
    (DissolveStatus dPending 3 false).1.dissolve.agreed = []
    ∧ (DissolveStatus dPending 3 false).1.dissolve.running = false
    ∧ (DissolveStatus dPending 3 true).1.status = DeskStatus.destroyed
    ∧ DissolveStatus dDestroyed 3 true = (dDestroyed, [], [Msg.onDissolveSuccess]) := by
  have h := c1_dissolve_vote dPending 3 true (by decide) (by decide) (by decide)
    (by intro a ha; fin_cases ha <;> decide) (by decide) (by decide)
  exact ⟨h.1.1, h.1.2.1, (h.2.1 (by decide)).1, h.2.2.2 dDestroyed (by decide)⟩

/-! ## C4 -/

/-- C4: a dissolve vote applied from idle starts with the fixed 300 second
countdown; a recorded agreement on a live desk while the pending vote's
remaining time exceeds the 150 second threshold clamps it to exactly that
threshold; and no desk operation ever increases the remaining time of a
pending vote. -/
theorem c4_rest_time_monotone (d : Desk) (uid : Int) :
    (d.dissolve.running = false →
      (d.applyDissolve uid).dissolve.restTime = applyDissolveRestTime
      ∧ applyDissolveRestTime = 300)
    ∧ (d.dissolve.running = true → d.status ≠ DeskStatus.destroyed →
      agreeDissolveRestTime < d.dissolve.restTime →
      (Desk.step d (DeskOp.dissolveStatusOp uid true)).dissolve.restTime = agreeDissolveRestTime
      ∧ agreeDissolveRestTime = 150)
    ∧ (∀ op : DeskOp, d.dissolve.running = true →
      (Desk.step d op).dissolve.restTime ≤ d.dissolve.restTime) := by
  refine ⟨?_, ?_, ?_⟩
  · intro hrun
    constructor
    · unfold Desk.applyDissolve
      rw [if_neg (by simp [hrun])]
    · rfl
  · intro _ hstat hgt
    refine ⟨?_, rfl⟩
    show (DissolveStatus d uid true).1.dissolve.restTime = agreeDissolveRestTime
    unfold DissolveStatus
    rw [if_neg hstat, if_neg (show ¬(true = false) by decide)]
    simp only [DissolveState.setUidStatus, if_pos rfl, DissolveState.agreeCount,
      Desk.doDissolve, DissolveState.stop]
    by_cases hcount : (insertUid uid d.dissolve.agreed).length < d.capacity <;>
      simp [hgt, hcount]
  · intro op hrun
    cases op with
    | dissolveStatusOp u r =>
      show (DissolveStatus d u r).1.dissolve.restTime ≤ d.dissolve.restTime
      unfold DissolveStatus
      by_cases hstat : d.status = DeskStatus.destroyed
      · rw [if_pos hstat]
      · rw [if_neg hstat]
        cases r with
        | false => simp [DissolveState.reset, DissolveState.stop]
        | true =>
          rw [if_neg (show ¬(true = false) by decide)]
          simp only [DissolveState.setUidStatus, if_pos rfl, DissolveState.agreeCount,
            Desk.doDissolve, DissolveState.stop]
          by_cases hc : agreeDissolveRestTime < d.dissolve.restTime <;>
            by_cases hcount : (insertUid u d.dissolve.agreed).length < d.capacity <;>
              simp [hc, hcount] <;> omega
    | applyDissolveOp u =>
      show (d.applyDissolve u).dissolve.restTime ≤ d.dissolve.restTime
      unfold Desk.applyDissolve
      rw [if_pos hrun]
    | pauseOp u =>
      show ({ d with dissolve := d.dissolve.updateOnlineStatus u false } : Desk).dissolve.restTime ≤ d.dissolve.restTime
      simp [DissolveState.updateOnlineStatus]
    | resumeOp u =>
      show ({ d with dissolve := d.dissolve.updateOnlineStatus u true } : Desk).dissolve.restTime ≤ d.dissolve.restTime
      simp [DissolveState.updateOnlineStatus]
    | tickOp =>
      show (d.tickDissolve).dissolve.restTime ≤ d.dissolve.restTime
      unfold Desk.tickDissolve
      rw [if_pos (by simp [hrun])]
      simp

/-- C4 witness: on the concrete fixtures, applying a dissolve to the idle
desk starts a 300 second countdown, player 3's agreement on the pending
desk (280 seconds left) clamps the countdown to 150, and one elapsed second
never raises it. -/
theorem c4_witness :
    ((dIdleVote.applyDissolve 3).dissolve.restTime = applyDissolveRestTime
      ∧ applyDissolveRestTime = 300)
    ∧ ((Desk.step dPending (DeskOp.dissolveStatusOp 3 true)).dissolve.restTime = agreeDissolveRestTime
      ∧ agreeDissolveRestTime = 150)
    ∧ (Desk.step dPending DeskOp.tickOp).dissolve.restTime ≤ dPending.dissolve.restTime :=
  ⟨(c4_rest_time_monotone dIdleVote 3).1 rfl,
    (c4_rest_time_monotone dPending 3).2.1 rfl (by decide) (by decide),
    (c4_rest_time_monotone dPending 3).2.2 DeskOp.tickOp rfl⟩

/-! ## C3 -/

/-- A successful lookup comes from an entry of the list. -/
theorem lookupEntry_mem {α β : Type} [DecidableEq α] (l : List (α × β)) (k : α) (b : β)
    (h : lookupEntry l k = some b) : (k, b) ∈ l := by
  induction l with
  | nil => simp [lookupEntry] at h
  | cons e rest ih =>
    rw [lookupEntry] at h
    split at h
    · rename_i heq
      have hv : e.2 = b := Option.some.inj h
      have : (k, b) = e := by rw [← heq, ← hv]
      exact List.mem_cons.mpr (Or.inl this)
    · exact List.mem_cons.mpr (Or.inr (ih h))

/-- Entries after setEntry are the new pair or old entries. -/
theorem mem_setEntry {α β : Type} [DecidableEq α] (l : List (α × β)) (k : α) (v : β)
    (e : α × β) (h : e ∈ setEntry l k v) : e = (k, v) ∨ e ∈ l := by
  unfold setEntry at h
  rcases List.mem_map.mp h with ⟨e0, he0, heq⟩
  by_cases hk : e0.1 = k
  · rw [if_pos hk] at heq
    exact Or.inl heq.symm
  · rw [if_neg hk] at heq
    exact Or.inr (heq ▸ he0)

/-- The registry after a Join is either untouched or has one desk extended
by the joining player, and only when that desk had a free seat. -/
theorem Join_snd_cases (fu : Bool) (ver : Nat) (icm : Int → Int → Bool)
    (desks : List (Nat × Desk)) (uid : Int) (rv no : Nat) :
    (Join fu ver icm desks uid rv no).2 = desks
    ∨ ∃ d : Desk, lookupEntry desks no = some d ∧ d.players.length < d.capacity
        ∧ (Join fu ver icm desks uid rv no).2 = setEntry desks no (d.playerJoin uid) := by
  unfold Join
  by_cases h1 : fu = true ∧ rv ≠ ver
  · rw [if_pos h1]
    exact Or.inl rfl
  · rw [if_neg h1]
    cases hlk : lookupEntry desks no with
    | none => exact Or.inl rfl
    | some d =>
      dsimp only
      by_cases h2 : d.capacity ≤ d.players.length
      · rw [if_pos h2]
        exact Or.inl rfl
      · rw [if_neg h2]
        by_cases h3 : 0 < d.clubId ∧ icm d.clubId uid = false
        · rw [if_pos h3]
          exact Or.inl rfl
        · rw [if_neg h3]
          exact Or.inr ⟨d, rfl, not_le.mp h2, rfl⟩

/-- C3: a Join aimed at a desk whose seats are all taken (and which passes
the version gate, the only check preceding the capacity gate) gets the
room-full reply and leaves the registry — hence that desk's seats, group
and status — untouched; and no Join ever pushes a desk's seated count above
its capacity. -/
theorem c3_join_capacity (fu : Bool) (ver : Nat) (icm : Int → Int → Bool)
    (desks : List (Nat × Desk)) (uid : Int) (rv deskNo : Nat) (d : Desk)
    (hver : ¬(fu = true ∧ rv ≠ ver))
    (hfound : lookupEntry desks deskNo = some d)
    (hfull : d.players.length = d.capacity)
    (hwf : ∀ e ∈ desks, e.2.players.length ≤ e.2.capacity) :
    Join fu ver icm desks uid rv deskNo = (JoinReply.playerNumEnough, desks)
    ∧ ∀ (uid2 : Int) (rv2 no2 : Nat),
        ∀ e ∈ (Join fu ver icm desks uid2 rv2 no2).2,
          e.2.players.length ≤ e.2.capacity := by
  constructor
  · unfold Join
    rw [if_neg hver, hfound]
    dsimp only
    rw [if_pos (le_of_eq hfull.symm)]
  · intro uid2 rv2 no2 e he
    rcases Join_snd_cases fu ver icm desks uid2 rv2 no2 with hcase | ⟨d2, hlk, hlt, hcase⟩
    · rw [hcase] at he
      exact hwf e he
    · rw [hcase] at he
      rcases mem_setEntry _ _ _ _ he with rfl | he2
      · simp only [Desk.playerJoin, List.length_append, List.length_cons,
          List.length_nil]
        omega
      · exact hwf e he2

/-- C3 witness: joining the concrete full two-seat desk is refused with the
room-full reply, the registry is unchanged, and the capacity bound holds
afterwards. -/
theorem c3_witness :
    Join false 1 icmAlways [(5, dFull)] 9 1 5 = (JoinReply.playerNumEnough, [(5, dFull)])
    ∧ ∀ e ∈ (Join false 1 icmAlways [(5, dFull)] 9 1 5).2,
        e.2.players.length ≤ e.2.capacity := by
  have h := c3_join_capacity false 1 icmAlways [(5, dFull)] 9 1 5 dFull
    (by decide) (by decide) (by decide) (by decide)
  exact ⟨h.1, h.2 9 1 5⟩

/-! ## C9 -/

/-- The selection loop of the sweep is a filter with the sweep predicate. -/
theorem sweepVictims_eq_filter (deadline : Int) (l : List (Nat × Desk)) :
    sweepVictims deadline l = l.filter (fun e =>
      decide (e.2.status = DeskStatus.destroyed ∨ e.2.createdAt < deadline)) := by
  induction l with
  | nil => rfl
  | cons a rest ih =>
    rw [sweepVictims, List.filter_cons]
    split
    · rename_i h
      rw [if_pos (by simpa using h), ih]
    · rename_i h
      rw [if_neg (by simpa using h), ih]

/-- Membership in the sweep's victim selection. -/
theorem mem_sweepVictims (deadline : Int) (l : List (Nat × Desk)) (e : Nat × Desk) :
    e ∈ sweepVictims deadline l ↔
      e ∈ l ∧ (e.2.status = DeskStatus.destroyed ∨ e.2.createdAt < deadline) := by
  rw [sweepVictims_eq_filter, List.mem_filter]
  simp

/-- Membership after the destruction loop: an entry survives iff its room
number was not among the victims. -/
theorem mem_destroyAll (vs : List (Nat × Desk)) (ds : List (Nat × Desk)) (e : Nat × Desk) :
    e ∈ destroyAll vs ds ↔ e ∈ ds ∧ e.1 ∉ vs.map Prod.fst := by
  induction vs generalizing ds with
  | nil => simp [destroyAll]
  | cons v rest ih =>
    rw [destroyAll, ih]
    unfold removeEntry
    simp only [List.mem_filter, List.map_cons, List.mem_cons, decide_not,
      Bool.not_eq_eq_eq_not, Bool.not_true, decide_eq_false_iff_not]
    constructor
    · rintro ⟨⟨he, hne⟩, hnm⟩
      exact ⟨he, by
        rintro (h | h)
        · exact hne h
        · exact hnm h⟩
    · rintro ⟨he, hno⟩
      exact ⟨⟨he, fun h => hno (Or.inl h)⟩, fun h => hno (Or.inr h)⟩

/-- C9: one pass of the 5-minute sweep destroys exactly the rooms whose
status is Destroyed or whose creation time lies more than 24 hours before
the sweep, and a second pass over the result with no intervening change
destroys nothing and leaves the registry as it was. -/
theorem c9_sweep_exact_idempotent (desks : List (Nat × Desk)) (now : Int) :
    (∀ no : Nat, no ∈ (sweepPass desks now).2 ↔
      ∃ d : Desk, (no, d) ∈ desks
        ∧ (d.status = DeskStatus.destroyed ∨ d.createdAt < now - 86400))
    ∧ sweepPass (sweepPass desks now).1 now = ((sweepPass desks now).1, []) := by
  constructor
  · intro no
    unfold sweepPass
    simp only [List.mem_map]
    constructor
    · rintro ⟨e, he, rfl⟩
      have := (mem_sweepVictims _ _ _).mp he
      exact ⟨e.2, by simpa using this.1, this.2⟩
    · rintro ⟨d, hd, hp⟩
      exact ⟨(no, d), (mem_sweepVictims _ _ _).mpr ⟨hd, hp⟩, rfl⟩
  · have hnil : sweepVictims (now - 86400) (sweepPass desks now).1 = [] := by
      rw [List.eq_nil_iff_forall_not_mem]
      intro e he
      have h1 := (mem_sweepVictims _ _ _).mp he
      have h2 := (mem_destroyAll _ _ _).mp (by
        simpa [sweepPass] using h1.1)
      exact h2.2 (List.mem_map.mpr
        ⟨e, (mem_sweepVictims _ _ _).mpr ⟨h2.1, h1.2⟩, rfl⟩)
    show sweepPass (sweepPass desks now).1 now = _
    simp only [sweepPass] at hnil ⊢
    rw [hnil]
    simp [destroyAll]

/-! ## C5 -/

/-- C5 counterexample: replaying DeskManager.ReConnect for a seated player
whose previous live session is 7 (desk 11, new session 8), the removal of
session 7 from the desk's broadcast group is the last event — no pair of
positions places it before the Close of session 7, refuting the claimed
detach-before-close (and before-bind) order. -/
theorem c5_counterexample :
    ReConnect (some ⟨some 7, some 11⟩) 42 8
      = [RcEvent.clearSession 7, RcEvent.closeSession 7, RcEvent.bindSession 8,
          RcEvent.groupLeave 7]
    ∧ ¬(∃ i j : Fin 4, (i : Nat) < (j : Nat)
        ∧ (ReConnect (some ⟨some 7, some 11⟩) 42 8)[(i : Nat)]? = some (RcEvent.groupLeave 7)
        ∧ (ReConnect (some ⟨some 7, some 11⟩) 42 8)[(j : Nat)]? = some (RcEvent.closeSession 7)) := by
  decide

/-- C5 (amended): for every ReConnect by a player seated in a room with a
previous live session, the previous session is removed from the room's
broadcast group only after that session is closed and after the new session
is bound — the trace is Clear-old, Close-old, bind-new,
detach-old-from-group, and it is still exactly the previous session that is
detached. -/
theorem c5_rebind_order (p : PlayerRec) (ps dn ns : Nat) (uid : Int)
    (hs : p.session = some ps) (hd : p.desk = some dn) :
    ReConnect (some p) uid ns
      = [RcEvent.clearSession ps, RcEvent.closeSession ps, RcEvent.bindSession ns,
          RcEvent.groupLeave ps] := by
  unfold ReConnect
  dsimp only
  rw [hs, hd]
  rfl

/-- C5 witness: the rebind order theorem applied to a concrete player with
live session 9 seated at desk 12, reconnecting with session 10. -/
theorem c5_witness :
    ReConnect (some ⟨some 9, some 12⟩) 1 10
      = [RcEvent.clearSession 9, RcEvent.closeSession 9, RcEvent.bindSession 10,
          RcEvent.groupLeave 9] :=
  c5_rebind_order ⟨some 9, some 12⟩ 9 12 10 1 rfl rfl

/-! ## C7 -/

/-- C7 counterexample: a Login whose `s.Bind(uid)` call failed (error 3)
nevertheless proceeds — it creates and binds the player — and returns the
Response call's success instead of the binding error, refuting the claim
that the binding error is propagated as Login's result. -/
theorem c7_counterexample :
    (Login (some 3) none [] 1 5).1 = none
    ∧ (Login (some 3) none [] 1 5).1 ≠ some 3
    ∧ (Login (some 3) none [] 1 5).2.1 = [(1, ⟨some 5, none⟩)] := by
  decide

/-- C7 (amended): Manager.Login discards the result of the session-binding
call on line 132 (unlike ReConnect, it never tests it): whatever Bind
returned, Login performs the same registry update and session events, and
its error result is exactly the final Response call's result. -/
theorem c7_login_ignores_bind (bindErr respErr : Option Nat)
    (players : List (Int × PlayerRec)) (uid : Int) (newSid : Nat) :
    (Login bindErr respErr players uid newSid).1 = respErr
    ∧ Login bindErr respErr players uid newSid = Login none respErr players uid newSid := by
  cases h : lookupEntry players uid <;> simp [Login, h]

/-! ## C8 -/

/-- C8: an Exit against a desk that is not in the Created status leaves the
desk unchanged and broadcasts nothing to the room (mid-game, Playing,
nothing is even pushed to the requester; on a destroyed desk only the
direct onDissolveSuccess reply goes back); hence seat removal and the
exit/dissolve broadcast happen only while the status is Created. -/
theorem c8_exit_only_created (d : Desk) (uid : Int) (flag : Bool)
    (h : d.status ≠ DeskStatus.create) :
    (Exit (some d) uid flag).1 = some d
    ∧ (Exit (some d) uid flag).2.1 = []
    ∧ (d.status = DeskStatus.playing → (Exit (some d) uid flag).2.2 = []) := by
  unfold Exit
  dsimp only
  by_cases hd : d.status = DeskStatus.destroyed
  · rw [if_pos hd]
    exact ⟨rfl, rfl, fun hpl => absurd (hpl ▸ hd) (by simp [hpl])⟩
  · rw [if_neg hd, if_pos h]
    exact ⟨rfl, rfl, fun _ => rfl⟩

/-- C8 witness: on the concrete mid-game desk, an Exit request changes
nothing and emits neither broadcasts nor pushes. -/
theorem c8_witness :
    (Exit (some dPending) 1 false).1 = some dPending
    ∧ (Exit (some dPending) 1 false).2.1 = []
    ∧ (Exit (some dPending) 1 false).2.2 = [] := by
  have h := c8_exit_only_created dPending 1 false (by decide)
  exact ⟨h.1, h.2.1, h.2.2 rfl⟩

/-! ## C6 -/

/-- C6: the administrative pass does not drain until all three channels are
empty.  On the concrete state whose reset queue holds uid 2 — a registered,
currently connected player — followed by uid 3, the pass executes the Go
`return` of the connected-player refusal and ends with uid 3 still queued:
a single refused reset stops the pass before the remaining queued requests
of the tick are processed, contrary to the claim (and to the
drain-until-empty default-case design the function's own comment
describes). -/
theorem c6_reset_return_aborts_pass :
    drainLoop
      { players := [(2, ⟨some 9, some 5⟩), (3, ⟨none, some 6⟩)],
        chKick := [], chReset := [2, 3], chRecharge := [],
        closed := [], pushes := [] }
      = DrainResult.aborted
        { players := [(2, ⟨some 9, some 5⟩), (3, ⟨none, some 6⟩)],
          chKick := [], chReset := [3], chRecharge := [],
          closed := [], pushes := [] } := by
  rw [drainLoop.eq_def]
  rfl

/-! ## C10 -/

/-- C10: the kick branch is free of nil dereference exactly when the queued
uid is registered with a live session — otherwise the unconditional
`p.session.Close()` after the mere logging of the not-found/offline case
faults, the reachable error branch — and the recharge branch, which reads
`player.session` before testing the lookup's found flag, is free of nil
dereference exactly when the uid is registered. -/
theorem c10_drain_nil_safety (players : List (Int × PlayerRec)) (uid : Int) :
    (kickClosed players uid = none ↔
      ¬ ∃ p : PlayerRec, lookupEntry players uid = some p ∧ p.session ≠ none)
    ∧ (rechargeDelivery players uid = none ↔ lookupEntry players uid = none) := by
  constructor
  · unfold kickClosed
    cases h : lookupEntry players uid with
    | none => simp
    | some p => cases hs : p.session <;> simp [hs]
  · unfold rechargeDelivery
    cases h : lookupEntry players uid <;> simp

end GoMahjong
